import Mathlib

/-!
Verification development for the codelens-ai repository.

The definitions below are a shallow embedding of the resilient
multi-credential request dispatcher: the credential pool
(`GeminiKeyManager` in `src/api/gemini.ts`), the client-side retry loop
and response cache (`src/services/geminiService.ts`), and the status
checker (`src/services/apiStatus.ts`).  JavaScript `Date.now()` values
are passed in explicitly as `now : Nat`; `Map`s keyed by strings or
numbers are embedded as total functions with the source's get-or-default
semantics.
-/

namespace CodeLens

/-- Per-key usage record: mirrors the values of
`keyUsage : Map<number, { count, lastUsed }>` in `GeminiKeyManager`.
The map's `get(index) || { count: 0, lastUsed: 0 }` read is embedded by
making the map a total function whose default is `⟨0, 0⟩`. -/
structure KeyUsage where
  count : Nat
  lastUsed : Nat
deriving DecidableEq, Repr

/-- State of `GeminiKeyManager` (`src/api/gemini.ts`, lines 138-213). -/
structure KeyManager where
  apiKeys : List String
  currentIndex : Nat
  failedKeys : Finset Nat
  keyUsage : Nat → KeyUsage

/-- The `for` loop inside `getNextKey` (`src/api/gemini.ts`, lines
166-179): advance the cursor modulo pool size, skip indices in
`failedKeys`, and on the first non-failed index record usage and return
the key.  The fuel argument is the number of remaining loop iterations
(`apiKeys.length` at the top-level call).  Returns the selected
`(key, index)` (or `none` if the loop ran out) together with the
manager state after the loop. -/
def getNextKeyScan (m : KeyManager) (now : Nat) : Nat → Option (String × Nat) × KeyManager
  | 0 => (none, m)
  | fuel + 1 =>
    let len := m.apiKeys.length
    let idx := (m.currentIndex + 1) % len
    let m1 : KeyManager := { m with currentIndex := idx }
    if idx ∈ m1.failedKeys then
      getNextKeyScan m1 now fuel
    else
      let u := m1.keyUsage idx
      (some (m1.apiKeys.getD idx "", idx),
        { m1 with keyUsage := Function.update m1.keyUsage idx ⟨u.count + 1, now⟩ })

/-- `failedKeys.clear()` (`src/api/gemini.ts`, line 182). -/
def clearFailed (m : KeyManager) : KeyManager :=
  { m with failedKeys := ∅ }

/-- `getNextKey` (`src/api/gemini.ts`, lines 160-184): `null` when the
pool is empty; otherwise scan once, and if every candidate was skipped
clear the failed set and scan again.  The source ends the all-failed
branch with a recursive `return this.getNextKey()`; that call is
unfolded exactly once here, which is exhaustive because after the clear
the rescan of a nonempty pool always accepts its first candidate. -/
def getNextKey (m : KeyManager) (now : Nat) : Option (String × Nat) × KeyManager :=
  if m.apiKeys.length = 0 then (none, m)
  else
    let r := getNextKeyScan m now m.apiKeys.length
    match r.1 with
    | some v => (some v, r.2)
    | none => getNextKeyScan (clearFailed r.2) now r.2.apiKeys.length

/-- `markKeyFailed` (`src/api/gemini.ts`, lines 186-189). -/
def markKeyFailed (m : KeyManager) (index : Nat) : KeyManager :=
  { m with failedKeys := insert index m.failedKeys }

/-- `markKeySuccess` (`src/api/gemini.ts`, lines 191-194): only removes
the index from the failed set. -/
def markKeySuccess (m : KeyManager) (index : Nat) : KeyManager :=
  { m with failedKeys := m.failedKeys.erase index }

/-- `n` successive selections, recording the chosen pool index each time
(the iteration used by the spec's round-robin fairness property). -/
def selectIndices (m : KeyManager) (now : Nat) : Nat → List Nat
  | 0 => []
  | n + 1 =>
    match getNextKey m now with
    | (some (_, i), m2) => i :: selectIndices m2 now n
    | (none, _) => []

/-- A two-key pool with both keys marked failed (concrete witness state). -/
def mgrAllFailed : KeyManager := ⟨["alpha", "beta"], 0, {0, 1}, fun _ => ⟨0, 0⟩⟩

/-- An empty pool (concrete witness state). -/
def mgrEmpty : KeyManager := ⟨[], 0, ∅, fun _ => ⟨0, 0⟩⟩

/-- A three-key pool with no failures and the cursor at 1 (concrete
witness state). -/
def mgrRoundRobin : KeyManager := ⟨["alpha", "beta", "gamma"], 1, ∅, fun _ => ⟨0, 0⟩⟩

/-- A one-key pool whose only key is marked failed (concrete witness
state for the `markKeySuccess` counterexample). -/
def mgrOneFailed : KeyManager := ⟨["alpha"], 0, {0}, fun _ => ⟨0, 0⟩⟩

/-- A two-key pool with no failures (concrete witness state). -/
def mgrTwo : KeyManager := ⟨["alpha", "beta"], 0, ∅, fun _ => ⟨0, 0⟩⟩

/-- Value of the `cache : Map<string, { data, timestamp }>` inside
`CacheManager` (`src/services/geminiService.ts`, line 7). -/
structure CacheEntry (α : Type) where
  data : α
  timestamp : Nat
deriving DecidableEq

/-- `CacheManager` (`src/services/geminiService.ts`, lines 6-40); the
`Map` is embedded as a function from keys to optional entries.  The
stored payloads are `any` in the source; here the manager is typed by
the payload it holds. -/
structure CacheManager (α : Type) where
  cache : String → Option (CacheEntry α)

/-- `defaultTTL = 10 * 60 * 1000` milliseconds (line 8). -/
def defaultTTL : Nat := 10 * 60 * 1000

/-- A freshly constructed cache manager. -/
def emptyCache (α : Type) : CacheManager α := ⟨fun _ => none⟩

/-- `CacheManager.set` (lines 10-21): stores the entry stamped with the
current time, and schedules the `setTimeout` auto-cleanup after
`ttl || defaultTTL` ms (`0` is falsy in JavaScript).  Returns the new
state together with the time at which that timer will fire. -/
def CacheManager.set {α : Type} (c : CacheManager α) (now : Nat) (key : String) (data : α)
    (ttl : Option Nat) : CacheManager α × Nat :=
  (⟨fun k => if k = key then some ⟨data, now⟩ else c.cache k⟩,
   now + (match ttl with | some t => if t = 0 then defaultTTL else t | none => defaultTTL))

/-- The `setTimeout` callback scheduled by `set` (lines 16-20), run with
the clock reading `fireNow`: it deletes the entry only when the stored
timestamp equals `Date.now()` at fire time. -/
def CacheManager.cleanup {α : Type} (c : CacheManager α) (fireNow : Nat) (key : String) :
    CacheManager α :=
  match c.cache key with
  | some e =>
    if e.timestamp = fireNow then ⟨fun k => if k = key then none else c.cache k⟩ else c
  | none => c

/-- `CacheManager.get` (lines 23-35): miss on absence; the age check
compares against `defaultTTL` (the `ttl` argument given to `set` is not
consulted here); an entry older than that is deleted on read.  Returns
the value (or `none`) and the state after the read. -/
def CacheManager.get {α : Type} (c : CacheManager α) (now : Nat) (key : String) :
    Option α × CacheManager α :=
  match c.cache key with
  | none => (none, c)
  | some e =>
    if now - e.timestamp > defaultTTL then
      (none, ⟨fun k => if k = key then none else c.cache k⟩)
    else (some e.data, c)

/-- `CacheManager.clear` (lines 37-39). -/
def CacheManager.clear {α : Type} (_c : CacheManager α) : CacheManager α := emptyCache α

/-- Signed 32-bit wrap-around: JavaScript `ToInt32`, applied by `<< 5`
and by `hash & hash` in `getCacheKey`. -/
def wrap32 (n : Int) : Int := (n + 2 ^ 31) % 2 ^ 32 - 2 ^ 31

/-- One step of the hash loop in `getCacheKey`
(`hash = ((hash << 5) - hash) + char; hash = hash & hash`): the shift
wraps to 32 bits, the subtraction and addition are exact in doubles at
these magnitudes, and the `&` wraps the result back to 32 bits. -/
def jsHashStep (h : Int) (c : Nat) : Int := wrap32 (wrap32 (h * 32) - h + c)

/-- The hash loop of `getCacheKey` over the content string
(`charCodeAt` agrees with the code point for the BMP strings involved). -/
def jsHash (s : String) : Int := s.toList.foldl (fun h ch => jsHashStep h ch.toNat) 0

/-- Base-36 digit, lower case, as produced by JavaScript `toString(36)`. -/
def digit36 (n : Nat) : Char := if n < 10 then Char.ofNat (48 + n) else Char.ofNat (87 + n)

/-- Digits of `n` in base 36, most significant first; the fuel starts at
`n`, which bounds the digit count for every `n ≥ 1`. -/
def base36Digits : Nat → Nat → List Char
  | 0, _ => []
  | fuel + 1, n => if n = 0 then [] else base36Digits fuel (n / 36) ++ [digit36 (n % 36)]

/-- JavaScript `Number.prototype.toString(36)` for naturals. -/
def toBase36 (n : Nat) : String :=
  if n = 0 then "0" else String.mk (base36Digits n n)

/-- The template string of `getCacheKey`:
`method : language : code : (extra || '')`. -/
def cacheKeyContent (method code language : String) (extra : Option String) : String :=
  method ++ ":" ++ language ++ ":" ++ code ++ ":" ++
    (match extra with | some e => e | none => "")

/-- `getCacheKey` (`src/services/geminiService.ts`, lines 44-56). -/
def getCacheKey (method code language : String) (extra : Option String) : String :=
  "cache_" ++ toBase36 (jsHash (cacheKeyContent method code language extra)).natAbs

/-- JavaScript `String.prototype.includes`. -/
def containsSubstr (s sub : String) : Bool :=
  (List.range (s.toList.length + 1)).any
    (fun i => (s.toList.drop i).take sub.toList.length == sub.toList)

/-- One attempt's observable upstream outcome for `fetchWithRetry`: a
parsed ok JSON body, a non-ok HTTP response (status plus the body's
`error` string, `""` when absent), or an exception thrown while
fetching/parsing (network failure). -/
inductive FetchOutcome (α : Type) where
  | success (data : α)
  | http (status : Nat) (errMsg : String)
  | network (msg : String)
deriving DecidableEq

/-- Whether the attempt outcome is an ok response. -/
def FetchOutcome.isSuccess {α : Type} : FetchOutcome α → Bool
  | FetchOutcome.success _ => true
  | _ => false

/-- Observable result of a `fetchWithRetry` run: the final value or
thrown error, the backoff sleeps performed (ms, in order), and the
number of attempts made. -/
structure FetchResult (α : Type) where
  result : Except String α
  waits : List Nat
  attempts : Nat

/-- The attempt loop of `fetchWithRetry` (`src/services/geminiService.ts`
lines 64-106): `attempt` is the 0-based loop index and `fuel` the
remaining iterations (`retries - attempt`).  A 429 with attempts left
sleeps `delay * 2 ^ attempt` and continues; any other failure throws
inside the `try` (a quota-flavoured body error is rewritten first, and a
missing body error falls back to `Request failed with status N`), and
the `catch` rethrows on the last attempt or sleeps the same exponential
backoff and retries.  Exhausted fuel is the loop exit
(`throw new Error('Max retries exceeded')`). -/
def fetchWithRetryGo {α : Type} (outcome : Nat → FetchOutcome α) (retries delay : Nat) :
    Nat → Nat → FetchResult α
  | _, 0 => ⟨Except.error "Max retries exceeded", [], 0⟩
  | attempt, fuel + 1 =>
    match outcome attempt with
    | FetchOutcome.success v => ⟨Except.ok v, [], 1⟩
    | FetchOutcome.http status errMsg =>
      if status = 429 ∧ attempt < retries - 1 then
        let r := fetchWithRetryGo outcome retries delay (attempt + 1) fuel
        ⟨r.result, delay * 2 ^ attempt :: r.waits, r.attempts + 1⟩
      else
        let e :=
          if containsSubstr errMsg "quota" || containsSubstr errMsg "exhausted" then
            "API quota exhausted. Please try again later."
          else if errMsg = "" then "Request failed with status " ++ toString status
          else errMsg
        if attempt = retries - 1 then ⟨Except.error e, [], 1⟩
        else
          let r := fetchWithRetryGo outcome retries delay (attempt + 1) fuel
          ⟨r.result, delay * 2 ^ attempt :: r.waits, r.attempts + 1⟩
    | FetchOutcome.network msg =>
      if attempt = retries - 1 then ⟨Except.error msg, [], 1⟩
      else
        let r := fetchWithRetryGo outcome retries delay (attempt + 1) fuel
        ⟨r.result, delay * 2 ^ attempt :: r.waits, r.attempts + 1⟩

/-- `fetchWithRetry` with the per-attempt upstream outcomes made
explicit (source defaults: `retries = 3`, `delay = 1000`). -/
def fetchWithRetry {α : Type} (outcome : Nat → FetchOutcome α) (retries delay : Nat) :
    FetchResult α :=
  fetchWithRetryGo outcome retries delay 0 retries

/-- Messages classified by the handler's catch block
(`src/api/gemini.ts`, lines 445-449) as quota/auth failures. -/
def shouldMarkFailed (msg : String) : Bool :=
  containsSubstr msg "429" || containsSubstr msg "quota" ||
  containsSubstr msg "RESOURCE_EXHAUSTED" || containsSubstr msg "PERMISSION_DENIED" ||
  containsSubstr msg "API key"

/-- The handler's inner `catch (apiError)` (lines 441-455): mark the
used credential failed when the message is a quota/auth signal, then
rethrow (the rethrown message is surfaced by the outer catch as the 500
body). -/
def handlerCatchApiError (m : KeyManager) (idx : Nat) (msg : String) : KeyManager :=
  if shouldMarkFailed msg then markKeyFailed m idx else m

/-- HTTP-level outcome of the serverless handler's POST path. -/
inductive HandlerResponse where
  | badRequest (msg : String)
  | serverError (msg : String)
  | okResponse (usedKey : Nat)
deriving DecidableEq

/-- The 500 body sent when no API key is configured (line 257). -/
def noKeysMsg : String := "No API keys available. Please check environment variables."

/-- The POST path of the serverless handler (`src/api/gemini.ts`, lines
245-473): field validation, credential selection, action dispatch, the
single upstream call (abstracted as `call : index → ok/err`; its
response post-processing does not affect the properties stated below),
and the inner catch.  Returns the response, the key-manager state
afterwards, and the number of upstream calls made. -/
def handlerPost (m : KeyManager) (now : Nat) (code language action : String)
    (call : Nat → Except String String) : HandlerResponse × KeyManager × Nat :=
  if code = "" ∨ language = "" ∨ action = "" then
    (HandlerResponse.badRequest "Missing required fields", m, 0)
  else
    match getNextKey m now with
    | (none, m1) => (HandlerResponse.serverError noKeysMsg, m1, 0)
    | (some (_, idx), m1) =>
      if action = "analyze" ∨ action = "trace" ∨ action = "chat" then
        match call idx with
        | Except.ok _ => (HandlerResponse.okResponse idx, markKeySuccess m1 idx, 1)
        | Except.error msg =>
          (HandlerResponse.serverError msg, handlerCatchApiError m1 idx msg, 1)
      else (HandlerResponse.badRequest "Invalid action", m1, 0)

/-- The three Mermaid diagram strings of an analysis (`src/types.ts`). -/
structure Diagrams where
  flowchart : String
  sequence : String
  dependencies : String
deriving DecidableEq

/-- A named concept of an analysis (`src/types.ts`). -/
structure Concept where
  name : String
  description : String
deriving DecidableEq

/-- A learning-path step of an analysis (`src/types.ts`). -/
structure LearningStep where
  step : String
  detail : String
deriving DecidableEq

/-- A per-line explanation of an analysis (`src/types.ts`). -/
structure LineExplanation where
  line : Nat
  explanation : String
deriving DecidableEq

/-- `AnalysisResult` (`src/types.ts`); `diagrams` is optional because
`analyzeCode` explicitly checks for a response missing it. -/
structure AnalysisResult where
  summary : String
  architecture : String
  diagrams : Option Diagrams
  concepts : List Concept
  learningPath : List LearningStep
  lineExplanations : List LineExplanation
deriving DecidableEq

/-- The fallback diagrams patched in when a successful analysis response
has no `diagrams` (`src/services/geminiService.ts`, lines 154-158). -/
def missingDiagramsFallback : Diagrams :=
  { flowchart := "graph TD\n  A[\"Fallback\"] --> B[\"Analysis Complete\"]",
    sequence := "sequenceDiagram\n  participant A\n  participant B\n  A->>B: Analysis",
    dependencies := "classDiagram\n  class \"Fallback\"\n  class \"Analysis\"\n  \"Fallback\" --> \"Analysis\"" }

/-- The complete fallback analysis synthesized by `analyzeCode` when the
request fails (`src/services/geminiService.ts`, lines 169-194). -/
def fallbackAnalysis : AnalysisResult :=
  { summary := "Code analysis completed. Generated visualization diagrams.",
    architecture := "Simple function-based architecture",
    diagrams := some
      { flowchart := "graph TD\n  \"Start\" --> \"Initialize max\"\n  \"Initialize max\" --> \"Loop through array\"\n  \"Loop through array\" --> \"Compare values\"\n  \"Compare values\" --> \"Update max if needed\"\n  \"Update max if needed\" --> \"Return result\"\n  \"Return result\" --> \"End\"",
        sequence := "sequenceDiagram\n  participant Main\n  participant findMax\n  Main->>findMax: call with array\n  findMax-->>Main: return max value\n  Main->>Console: log result",
        dependencies := "classDiagram\n  class \"findMax\" \x7b\n    +findMax(arr)\n  \x7d\n  class \"Array\" \x7b\n    +length\n    +[index]\n  \x7d\n  \"findMax\" --> \"Array\"" },
    concepts :=
      [ { name := "Array Iteration", description := "Looping through array elements" },
        { name := "Conditional Logic", description := "Comparing values with if statements" } ],
    learningPath :=
      [ { step := "1", detail := "Understand function definition" },
        { step := "2", detail := "Learn array iteration" },
        { step := "3", detail := "Master conditional comparisons" } ],
    lineExplanations :=
      [ { line := 1, explanation := "Function definition with parameter" },
        { line := 2, explanation := "Initialize max variable with first element" },
        { line := 3, explanation := "For loop to iterate through array" },
        { line := 4, explanation := "Conditional check for larger value" },
        { line := 5, explanation := "Update max if current element is larger" },
        { line := 8, explanation := "Return the maximum value" } ] }

/-- The missing-diagrams patch in `analyzeCode` (lines 148-159):
`result.diagrams = result.diagrams || fallback` — a present `diagrams`
object is kept even when its flowchart is empty. -/
def fixDiagrams (r : AnalysisResult) : AnalysisResult :=
  match r.diagrams with
  | none => { r with diagrams := some missingDiagramsFallback }
  | some _ => r

/-- `analyzeCode` (`src/services/geminiService.ts`, lines 111-201) with
the network exchange abstracted as `upstream`: an `Except.error` covers
every failure inside the `try` (fetch failure after retries, string
results that fail `JSON.parse`); an `Except.ok` is a received analysis
object.  Cache check first; on a miss and success the (diagram-patched)
result is cached and returned; on a miss and failure the catch block
returns `fallbackAnalysis` and caches it too. -/
def analyzeCode (c : CacheManager AnalysisResult) (now : Nat) (code language : String)
    (upstream : Except String AnalysisResult) :
    AnalysisResult × CacheManager AnalysisResult :=
  let key := getCacheKey "analyze" code language none
  match CacheManager.get c now key with
  | (some v, c1) => (v, c1)
  | (none, c1) =>
    match upstream with
    | Except.ok r =>
      let r2 := fixDiagrams r
      (r2, (CacheManager.set c1 now key r2 none).1)
    | Except.error _ =>
      (fallbackAnalysis, (CacheManager.set c1 now key fallbackAnalysis none).1)

/-- `askQuestion` (`src/services/geminiService.ts`, lines 309-331) with
the network exchange abstracted as `upstream`.  It has no `try`/`catch`:
a failure of `fetchWithRetry` propagates to the caller unchanged.  A
successful answer is cached with a 5-minute TTL. -/
def askQuestion (c : CacheManager String) (now : Nat) (code language question : String)
    (upstream : Except String String) : Except String (String × CacheManager String) :=
  let key := getCacheKey "chat" code language (some question)
  match CacheManager.get c now key with
  | (some v, c1) => Except.ok (v, c1)
  | (none, c1) =>
    match upstream with
    | Except.error e => Except.error e
    | Except.ok s => Except.ok (s, (CacheManager.set c1 now key s (some (5 * 60 * 1000))).1)

/-- The status record returned by `checkAPIStatus`
(`src/services/apiStatus.ts`, lines 4-11); `usage` entries are
`(index, count)` pairs. -/
structure APIStatus where
  message : String
  totalKeys : Nat
  activeKeys : Nat
  failedKeys : Nat
  usage : List (Nat × Nat)
  timestamp : String
deriving DecidableEq

/-- Outcome of the status fetch inside `checkAPIStatus`: a parsed JSON
body, a non-ok HTTP response, an unparsable body, or a thrown network
error. -/
inductive StatusFetchOutcome where
  | okJson (s : APIStatus)
  | httpNotOk (status : Nat)
  | badJson
  | networkError (msg : String)
deriving DecidableEq

/-- The `try` body of `checkAPIStatus` (`src/services/apiStatus.ts`,
lines 14-19): a non-ok response throws
`Status check failed: <status>`; fetch/parse failures throw their own
errors. -/
def checkAPIStatusTry : StatusFetchOutcome → Except String APIStatus
  | StatusFetchOutcome.okJson s => Except.ok s
  | StatusFetchOutcome.httpNotOk status =>
      Except.error ("Status check failed: " ++ toString status)
  | StatusFetchOutcome.badJson => Except.error "Unexpected token in JSON"
  | StatusFetchOutcome.networkError msg => Except.error msg

/-- The catch-branch record of `checkAPIStatus` (lines 21-30), with the
`new Date().toISOString()` clock passed in. -/
def fallbackAPIStatus (now : String) : APIStatus :=
  { message := "API unavailable", totalKeys := 0, activeKeys := 0, failedKeys := 0,
    usage := [], timestamp := now }

/-- `checkAPIStatus` (`src/services/apiStatus.ts`, lines 13-31): the
whole `try` body is wrapped in a catch-all that resolves with the
fallback record, so the function always returns an `APIStatus`. -/
def checkAPIStatus (o : StatusFetchOutcome) (now : String) : APIStatus :=
  match checkAPIStatusTry o with
  | Except.ok s => s
  | Except.error _ => fallbackAPIStatus now

/-- The scan loop never changes the key list. -/
theorem getNextKeyScan_apiKeys (now : Nat) :
    ∀ (fuel : Nat) (m : KeyManager), ((getNextKeyScan m now fuel).2).apiKeys = m.apiKeys := by
  intro fuel
  induction fuel with
  | zero => intro m; rfl
  | succ f ih =>
    intro m
    simp only [getNextKeyScan]
    split
    · exact ih _
    · rfl

/-- The scan loop never changes the failed set. -/
theorem getNextKeyScan_failedKeys (now : Nat) :
    ∀ (fuel : Nat) (m : KeyManager), ((getNextKeyScan m now fuel).2).failedKeys = m.failedKeys := by
  intro fuel
  induction fuel with
  | zero => intro m; rfl
  | succ f ih =>
    intro m
    simp only [getNextKeyScan]
    split
    · exact ih _
    · rfl

/-- An unsuccessful scan never touches the usage map. -/
theorem getNextKeyScan_none_keyUsage (now : Nat) :
    ∀ (fuel : Nat) (m : KeyManager), (getNextKeyScan m now fuel).1 = none →
      ((getNextKeyScan m now fuel).2).keyUsage = m.keyUsage := by
  intro fuel
  induction fuel with
  | zero => intro m _; rfl
  | succ f ih =>
    intro m h
    simp only [getNextKeyScan] at h ⊢
    by_cases hc : (m.currentIndex + 1) % m.apiKeys.length ∈ m.failedKeys
    · rw [if_pos hc] at h ⊢
      rw [ih _ h]
    · rw [if_neg hc] at h
      simp at h

/-- A successful scan bumps exactly the selected key's usage count and
stamps it with the current time. -/
theorem getNextKeyScan_some_keyUsage (now : Nat) :
    ∀ (fuel : Nat) (m : KeyManager) (k : String) (idx : Nat),
      (getNextKeyScan m now fuel).1 = some (k, idx) →
      ((getNextKeyScan m now fuel).2).keyUsage =
        Function.update m.keyUsage idx ⟨(m.keyUsage idx).count + 1, now⟩ := by
  intro fuel
  induction fuel with
  | zero => intro m k idx h; simp [getNextKeyScan] at h
  | succ f ih =>
    intro m k idx h
    simp only [getNextKeyScan] at h ⊢
    by_cases hc : (m.currentIndex + 1) % m.apiKeys.length ∈ m.failedKeys
    · rw [if_pos hc] at h ⊢
      rw [ih _ _ _ h]
    · rw [if_neg hc] at h ⊢
      simp only [Option.some.injEq, Prod.mk.injEq] at h
      obtain ⟨hk, hidx⟩ := h
      subst hidx
      rfl

/-- When every index of the pool is marked failed the scan loop skips
every candidate and returns nothing. -/
theorem getNextKeyScan_allFailed (now : Nat) :
    ∀ (fuel : Nat) (m : KeyManager),
      (∀ i < m.apiKeys.length, i ∈ m.failedKeys) → 1 ≤ m.apiKeys.length →
      (getNextKeyScan m now fuel).1 = none := by
  intro fuel
  induction fuel with
  | zero => intro m _ _; rfl
  | succ f ih =>
    intro m hall hlen
    have hidx : (m.currentIndex + 1) % m.apiKeys.length < m.apiKeys.length :=
      Nat.mod_lt _ hlen
    simp only [getNextKeyScan]
    rw [if_pos (hall _ hidx)]
    exact ih _ hall hlen

/-- When no key is marked failed the scan loop accepts its very first
candidate, the cursor advanced by one modulo the pool size. -/
theorem getNextKeyScan_emptyFailed (now : Nat) (fuel : Nat) (m : KeyManager)
    (h : m.failedKeys = ∅) :
    getNextKeyScan m now (fuel + 1) =
      (some (m.apiKeys.getD ((m.currentIndex + 1) % m.apiKeys.length) "",
             (m.currentIndex + 1) % m.apiKeys.length),
       { m with currentIndex := (m.currentIndex + 1) % m.apiKeys.length,
                keyUsage := Function.update m.keyUsage
                  ((m.currentIndex + 1) % m.apiKeys.length)
                  ⟨(m.keyUsage ((m.currentIndex + 1) % m.apiKeys.length)).count + 1, now⟩ }) := by
  simp [getNextKeyScan, h]

/-- `getNextKey` on a pool with no failed key: it selects the key at
`(currentIndex + 1) % size`, bumps its usage, and moves the cursor. -/
theorem getNextKey_emptyFailed (m : KeyManager) (now : Nat)
    (h0 : m.failedKeys = ∅) (h1 : 1 ≤ m.apiKeys.length) :
    getNextKey m now =
      (some (m.apiKeys.getD ((m.currentIndex + 1) % m.apiKeys.length) "",
             (m.currentIndex + 1) % m.apiKeys.length),
       { m with currentIndex := (m.currentIndex + 1) % m.apiKeys.length,
                keyUsage := Function.update m.keyUsage
                  ((m.currentIndex + 1) % m.apiKeys.length)
                  ⟨(m.keyUsage ((m.currentIndex + 1) % m.apiKeys.length)).count + 1, now⟩ }) := by
  obtain ⟨len, hlen⟩ : ∃ len, m.apiKeys.length = len + 1 :=
    ⟨m.apiKeys.length - 1, by omega⟩
  unfold getNextKey
  rw [if_neg (by omega)]
  rw [hlen, getNextKeyScan_emptyFailed now len m h0]
  simp [hlen]

/-- An empty pool yields `null` and leaves the manager untouched. -/
theorem getNextKey_zero (m : KeyManager) (now : Nat) (h : m.apiKeys.length = 0) :
    getNextKey m now = (none, m) := by
  unfold getNextKey
  rw [if_pos h]

/-- When every index of the pool is marked failed, `getNextKey` still
returns a key: the failed set is cleared (global reset) and the rescan
accepts the first candidate; the returned state has an empty failed set. -/
theorem getNextKey_allFailed (m : KeyManager) (now : Nat)
    (hlen : 1 ≤ m.apiKeys.length)
    (hall : ∀ i < m.apiKeys.length, i ∈ m.failedKeys) :
    ∃ k i m2, getNextKey m now = (some (k, i), m2) ∧
      m2.failedKeys = ∅ ∧ m2.apiKeys = m.apiKeys := by
  have h0 : ¬ m.apiKeys.length = 0 := by omega
  have hs : (getNextKeyScan m now m.apiKeys.length).1 = none :=
    getNextKeyScan_allFailed now m.apiKeys.length m hall hlen
  have hkeys : ((getNextKeyScan m now m.apiKeys.length).2).apiKeys = m.apiKeys :=
    getNextKeyScan_apiKeys now m.apiKeys.length m
  have hlen2 : ∃ len, ((getNextKeyScan m now m.apiKeys.length).2).apiKeys.length = len + 1 := by
    rw [hkeys]; exact ⟨m.apiKeys.length - 1, by omega⟩
  obtain ⟨len, hlen2⟩ := hlen2
  have hclear : (clearFailed (getNextKeyScan m now m.apiKeys.length).2).failedKeys = ∅ := rfl
  simp only [getNextKey, if_neg h0, hs]
  have hckeys : (clearFailed (getNextKeyScan m now m.apiKeys.length).2).apiKeys.length = len + 1 :=
    hlen2
  rw [show ((getNextKeyScan m now m.apiKeys.length).2).apiKeys.length = len + 1 from hlen2,
    getNextKeyScan_emptyFailed now len _ hclear]
  refine ⟨_, _, _, rfl, ?_, ?_⟩
  · rw [show (∅ : Finset Nat) = (clearFailed (getNextKeyScan m now m.apiKeys.length).2).failedKeys from rfl]
  · exact hkeys

/-- Claim C1: with at least one credential and every credential marked
failed, `getNextKey` still returns a credential via the global reset, and
the failed set is empty immediately after; `getNextKey` returns `null`
exactly when the pool size is 0. -/
theorem getNextKey_globalResetAndTotalness (m : KeyManager) (now : Nat)
    (hlen : 1 ≤ m.apiKeys.length)
    (hall : ∀ i < m.apiKeys.length, i ∈ m.failedKeys) :
    (∃ k i m2, getNextKey m now = (some (k, i), m2) ∧ m2.failedKeys = ∅) ∧
    (∀ (m3 : KeyManager) (n3 : Nat), (getNextKey m3 n3).1 = none ↔ m3.apiKeys.length = 0) := by
  constructor
  · obtain ⟨k, i, m2, hEq, hF, _⟩ := getNextKey_allFailed m now hlen hall
    exact ⟨k, i, m2, hEq, hF⟩
  · intro m3 n3
    constructor
    · intro hnone
      by_contra hne
      have h1 : 1 ≤ m3.apiKeys.length := by omega
      have h0 : ¬ m3.apiKeys.length = 0 := hne
      rcases hsc : (getNextKeyScan m3 n3 m3.apiKeys.length).1 with _ | v
      · -- first sweep found nothing: global reset, rescan succeeds
        have hkeys : ((getNextKeyScan m3 n3 m3.apiKeys.length).2).apiKeys = m3.apiKeys :=
          getNextKeyScan_apiKeys n3 m3.apiKeys.length m3
        obtain ⟨len, hlen2⟩ :
            ∃ len, ((getNextKeyScan m3 n3 m3.apiKeys.length).2).apiKeys.length = len + 1 := by
          rw [hkeys]; exact ⟨m3.apiKeys.length - 1, by omega⟩
        have hclear : (clearFailed (getNextKeyScan m3 n3 m3.apiKeys.length).2).failedKeys = ∅ := rfl
        simp only [getNextKey, if_neg h0, hsc, hlen2,
          getNextKeyScan_emptyFailed n3 len _ hclear] at hnone
        exact Option.noConfusion hnone
      · simp only [getNextKey, if_neg h0, hsc] at hnone
        exact Option.noConfusion hnone
    · intro hz
      rw [getNextKey_zero m3 n3 hz]

/-- With no failed key, the selected indices are the cursor advanced by
1, 2, ..., n modulo the pool size. -/
theorem selectIndices_emptyFailed (now : Nat) :
    ∀ (n : Nat) (m : KeyManager), m.failedKeys = ∅ → 1 ≤ m.apiKeys.length →
      selectIndices m now n =
        (List.range n).map (fun j => (m.currentIndex + 1 + j) % m.apiKeys.length) := by
  intro n
  induction n with
  | zero => intro m _ _; rfl
  | succ k ih =>
    intro m h0 h1
    rw [selectIndices, getNextKey_emptyFailed m now h0 h1]
    have hrec := ih { m with
        currentIndex := (m.currentIndex + 1) % m.apiKeys.length,
        keyUsage := Function.update m.keyUsage
          ((m.currentIndex + 1) % m.apiKeys.length)
          ⟨(m.keyUsage ((m.currentIndex + 1) % m.apiKeys.length)).count + 1, now⟩ } h0 h1
    simp only at hrec ⊢
    rw [hrec, List.range_succ_eq_map, List.map_cons, List.map_map]
    congr 1
    apply List.map_congr_left
    intro a _
    simp only [Function.comp_apply]
    rw [Nat.add_assoc, Nat.mod_add_mod]
    congr 1
    omega

/-- Claim C2: with no failed credential, `N` successive selections from
a pool of size `N ≥ 1` follow the cursor modulo `N` and visit every
credential index exactly once (a permutation of `0, ..., N - 1`). -/
theorem roundRobinFairness (m : KeyManager) (now N : Nat)
    (hN : m.apiKeys.length = N) (h1 : 1 ≤ N) (h0 : m.failedKeys = ∅) :
    selectIndices m now N = (List.range N).map (fun j => (m.currentIndex + 1 + j) % N) ∧
    (selectIndices m now N).Nodup ∧
    List.Perm (selectIndices m now N) (List.range N) := by
  have hchar : selectIndices m now N =
      (List.range N).map (fun j => (m.currentIndex + 1 + j) % N) := by
    rw [selectIndices_emptyFailed now N m h0 (by omega), hN]
  have hinj : ∀ x ∈ List.range N, ∀ y ∈ List.range N,
      (m.currentIndex + 1 + x) % N = (m.currentIndex + 1 + y) % N → x = y := by
    intro x hx y hy hxy
    have hmod : x % N = y % N := Nat.ModEq.add_left_cancel' (m.currentIndex + 1) hxy
    rw [Nat.mod_eq_of_lt (List.mem_range.mp hx), Nat.mod_eq_of_lt (List.mem_range.mp hy)] at hmod
    exact hmod
  have hnodup : (selectIndices m now N).Nodup := by
    rw [hchar]
    exact List.Nodup.map_on hinj (List.nodup_range N)
  have hsub : selectIndices m now N ⊆ List.range N := by
    rw [hchar]
    intro a ha
    obtain ⟨j, _, hj⟩ := List.mem_map.mp ha
    rw [← hj]
    exact List.mem_range.mpr (Nat.mod_lt _ (by omega))
  have hperm : List.Perm (selectIndices m now N) (List.range N) := by
    refine (hnodup.subperm hsub).perm_of_length_le ?_
    rw [hchar]
    simp
  exact ⟨hchar, hnodup, hperm⟩

/-- Witness for claim C1 at a concrete two-key pool with both keys failed. -/
theorem getNextKey_globalResetAndTotalness_witness :
    (∃ k i m2, getNextKey mgrAllFailed 7 = (some (k, i), m2) ∧ m2.failedKeys = ∅) ∧
    ((getNextKey mgrEmpty 7).1 = none ↔ mgrEmpty.apiKeys.length = 0) := by
  have h := getNextKey_globalResetAndTotalness mgrAllFailed 7 (by decide) (by decide)
  exact ⟨h.1, h.2 mgrEmpty 7⟩

/-- Witness for claim C2 at a concrete three-key pool. -/
theorem roundRobinFairness_witness :
    selectIndices mgrRoundRobin 3 3 =
      (List.range 3).map (fun j => (mgrRoundRobin.currentIndex + 1 + j) % 3) ∧
    (selectIndices mgrRoundRobin 3 3).Nodup ∧
    List.Perm (selectIndices mgrRoundRobin 3 3) (List.range 3) :=
  roundRobinFairness mgrRoundRobin 3 3 rfl (by decide) rfl

/-- Claim C7 counterexample: `markKeySuccess` clears the failed flag but
does not increment the credential's `useCount` — the count stays 0
instead of becoming 1 (the source bumps usage inside `getNextKey`, not
in `markKeySuccess`). -/
theorem markKeySuccess_noIncrement_counterexample :
    ((markKeySuccess mgrOneFailed 0).keyUsage 0).count = 0 ∧
    ¬ ((markKeySuccess mgrOneFailed 0).keyUsage 0).count = (mgrOneFailed.keyUsage 0).count + 1 ∧
    0 ∉ (markKeySuccess mgrOneFailed 0).failedKeys := by
  refine ⟨rfl, by decide, by decide⟩

/-- A successful `getNextKey` sets the selected key's usage to the old
count plus one, stamped with the current time. -/
theorem getNextKey_some_keyUsage (m : KeyManager) (now : Nat) (k : String) (idx : Nat)
    (m2 : KeyManager) (h : getNextKey m now = (some (k, idx), m2)) :
    m2.keyUsage = Function.update m.keyUsage idx ⟨(m.keyUsage idx).count + 1, now⟩ := by
  by_cases h0 : m.apiKeys.length = 0
  · rw [getNextKey_zero m now h0] at h
    exact Option.noConfusion (congrArg Prod.fst h)
  · rcases hsc : (getNextKeyScan m now m.apiKeys.length).1 with _ | v
    · -- first sweep failed: reset then rescan
      simp only [getNextKey, if_neg h0, hsc] at h
      have husage : ((getNextKeyScan m now m.apiKeys.length).2).keyUsage = m.keyUsage :=
        getNextKeyScan_none_keyUsage now m.apiKeys.length m hsc
      have h1 : (getNextKeyScan (clearFailed (getNextKeyScan m now m.apiKeys.length).2) now
          ((getNextKeyScan m now m.apiKeys.length).2).apiKeys.length).1 = some (k, idx) := by
        rw [h]
      have := getNextKeyScan_some_keyUsage now
        ((getNextKeyScan m now m.apiKeys.length).2).apiKeys.length
        (clearFailed (getNextKeyScan m now m.apiKeys.length).2) k idx h1
      rw [h] at this
      simpa [clearFailed, husage] using this
    · simp only [getNextKey, if_neg h0, hsc] at h
      obtain ⟨hv, hm2⟩ := Prod.mk.injEq .. ▸ h
      have hv' : (getNextKeyScan m now m.apiKeys.length).1 = some (k, idx) := by
        rw [hsc, hv]
      have := getNextKeyScan_some_keyUsage now m.apiKeys.length m k idx hv'
      rw [hm2] at this
      exact this

/-- Claim C7 (amended): `markKeySuccess` clears the failed flag, is
idempotent, and leaves the usage map untouched; the use count and
last-used stamp are instead updated by `getNextKey` when the credential
is selected. -/
theorem markKeySuccess_amended (m : KeyManager) (i : Nat) :
    i ∉ (markKeySuccess m i).failedKeys ∧
    markKeySuccess (markKeySuccess m i) i = markKeySuccess m i ∧
    (markKeySuccess m i).keyUsage = m.keyUsage ∧
    (∀ (now : Nat) (k : String) (idx : Nat) (m2 : KeyManager),
      getNextKey m now = (some (k, idx), m2) →
      (m2.keyUsage idx).count = (m.keyUsage idx).count + 1 ∧
      (m2.keyUsage idx).lastUsed = now) := by
  refine ⟨Finset.not_mem_erase i m.failedKeys, ?_, rfl, ?_⟩
  · simp only [markKeySuccess]
    congr 1
    exact Finset.erase_idem
  · intro now k idx m2 h
    rw [getNextKey_some_keyUsage m now k idx m2 h]
    simp

/-- Witness for the amended claim C7 at a concrete two-key pool. -/
theorem markKeySuccess_amended_witness :
    1 ∉ (markKeySuccess mgrTwo 1).failedKeys ∧
    ((getNextKey mgrTwo 5).2.keyUsage 1).count = (mgrTwo.keyUsage 1).count + 1 ∧
    ((getNextKey mgrTwo 5).2.keyUsage 1).lastUsed = 5 := by
  have hsel : getNextKey mgrTwo 5 = (some ("beta", 1), (getNextKey mgrTwo 5).2) := rfl
  have h4 := (markKeySuccess_amended mgrTwo 1).2.2.2 5 "beta" 1 (getNextKey mgrTwo 5).2 hsel
  exact ⟨(markKeySuccess_amended mgrTwo 1).1, h4.1, h4.2⟩

set_option maxRecDepth 40000 in
/-- Claim C3 counterexample: on an upstream failure the analyze dispatch
path returns the synthesized `fallbackAnalysis` — and caches it — instead
of propagating the classified error to the caller. -/
theorem analyzeCode_fallbackOnFailure_counterexample :
    (analyzeCode (emptyCache AnalysisResult) 0 "x" "js" (Except.error "network error")).1
      = fallbackAnalysis ∧
    ((analyzeCode (emptyCache AnalysisResult) 0 "x" "js" (Except.error "network error")).2.cache
        (getCacheKey "analyze" "x" "js" none)).isSome = true :=
  ⟨rfl, rfl⟩

/-- Claim C3 (amended): on an upstream failure the analyze dispatch path
does not propagate the error — it synthesizes `fallbackAnalysis`, caches
it under the request fingerprint, and returns it (the trace path behaves
the same way in the source); only the chat path (`askQuestion`)
propagates the upstream error to the caller unchanged. -/
theorem dispatchFailure_amended (c : CacheManager AnalysisResult) (cs : CacheManager String)
    (now : Nat) (code language question e : String)
    (hmissA : (CacheManager.get c now (getCacheKey "analyze" code language none)).1 = none)
    (hmissQ : (CacheManager.get cs now
        (getCacheKey "chat" code language (some question))).1 = none) :
    (analyzeCode c now code language (Except.error e)).1 = fallbackAnalysis ∧
    ((analyzeCode c now code language (Except.error e)).2.cache
        (getCacheKey "analyze" code language none)) = some ⟨fallbackAnalysis, now⟩ ∧
    askQuestion cs now code language question (Except.error e) = Except.error e := by
  rcases hg : CacheManager.get c now (getCacheKey "analyze" code language none) with ⟨o, c1⟩
  have ho : o = none := by rw [hg] at hmissA; exact hmissA
  subst ho
  rcases hq : CacheManager.get cs now (getCacheKey "chat" code language (some question))
    with ⟨oq, c2⟩
  have hoq : oq = none := by rw [hq] at hmissQ; exact hmissQ
  subst hoq
  refine ⟨?_, ?_, ?_⟩
  · simp only [analyzeCode, hg]
  · simp only [analyzeCode, hg, CacheManager.set]
    simp
  · simp only [askQuestion, hq]

/-- Witness for the amended claim C3 at concrete empty caches. -/
theorem dispatchFailure_amended_witness :
    (analyzeCode (emptyCache AnalysisResult) 3 "y" "py" (Except.error "boom")).1
      = fallbackAnalysis ∧
    ((analyzeCode (emptyCache AnalysisResult) 3 "y" "py" (Except.error "boom")).2.cache
        (getCacheKey "analyze" "y" "py" none)) = some ⟨fallbackAnalysis, 3⟩ ∧
    askQuestion (emptyCache String) 3 "y" "py" "why" (Except.error "boom")
      = Except.error "boom" :=
  dispatchFailure_amended (emptyCache AnalysisResult) (emptyCache String)
    3 "y" "py" "why" "boom" rfl rfl

/-- If no attempt in range can succeed, the retry loop ends in an error
(never a silent success). -/
theorem fetchWithRetryGo_noSuccess {β : Type} (outcome : Nat → FetchOutcome β)
    (retries delay : Nat) :
    ∀ (fuel attempt : Nat), attempt + fuel ≤ retries →
      (∀ i < retries, (outcome i).isSuccess = false) →
      ∃ e, (fetchWithRetryGo outcome retries delay attempt fuel).result = Except.error e := by
  intro fuel
  induction fuel with
  | zero => intro attempt _ _; exact ⟨_, rfl⟩
  | succ f ih =>
    intro attempt hle hno
    have hatt : attempt < retries := by omega
    rcases ho : outcome attempt with ⟨v⟩ | ⟨status, errMsg⟩ | ⟨msg⟩
    · have hbad := hno attempt hatt
      rw [ho] at hbad
      simp [FetchOutcome.isSuccess] at hbad
    · simp only [fetchWithRetryGo, ho]
      by_cases hc : status = 429 ∧ attempt < retries - 1
      · rw [if_pos hc]
        obtain ⟨e, he⟩ := ih (attempt + 1) (by omega) hno
        exact ⟨e, he⟩
      · rw [if_neg hc]
        by_cases hl : attempt = retries - 1
        · rw [if_pos hl]; exact ⟨_, rfl⟩
        · rw [if_neg hl]
          obtain ⟨e, he⟩ := ih (attempt + 1) (by omega) hno
          exact ⟨e, he⟩
    · simp only [fetchWithRetryGo, ho]
      by_cases hl : attempt = retries - 1
      · rw [if_pos hl]; exact ⟨_, rfl⟩
      · rw [if_neg hl]
        obtain ⟨e, he⟩ := ih (attempt + 1) (by omega) hno
        exact ⟨e, he⟩

/-- Claim C4: with 3 retries and base delay `d`, the upstream sequence
[rate-limited, rate-limited, success] succeeds after exactly 3 attempts,
sleeping `d * 2 ^ 0` and then `d * 2 ^ 1` between attempts; and whenever
no attempt in range succeeds, the run ends in an error. -/
theorem fetchWithRetry_backoffAndBoundedAttempts (d v : Nat) :
    (fetchWithRetry (fun n => if n = 0 then FetchOutcome.http 429 "" else
        if n = 1 then FetchOutcome.http 429 "" else FetchOutcome.success v) 3 d).result
      = Except.ok v ∧
    (fetchWithRetry (fun n => if n = 0 then FetchOutcome.http 429 "" else
        if n = 1 then FetchOutcome.http 429 "" else FetchOutcome.success v) 3 d).attempts = 3 ∧
    (fetchWithRetry (fun n => if n = 0 then FetchOutcome.http 429 "" else
        if n = 1 then FetchOutcome.http 429 "" else FetchOutcome.success v) 3 d).waits
      = [d * 2 ^ 0, d * 2 ^ 1] ∧
    (∀ (β : Type) (outcome : Nat → FetchOutcome β) (retries delay : Nat),
      (∀ i < retries, (outcome i).isSuccess = false) →
      ∃ e, (fetchWithRetry outcome retries delay).result = Except.error e) := by
  refine ⟨rfl, rfl, rfl, ?_⟩
  intro β outcome retries delay hno
  exact fetchWithRetryGo_noSuccess outcome retries delay retries 0 (by omega) hno

/-- Witness for claim C4 at `d = 1000`, `v = 7`, plus a concrete
never-successful run. -/
theorem fetchWithRetry_backoffAndBoundedAttempts_witness :
    (fetchWithRetry (fun n => if n = 0 then FetchOutcome.http 429 "" else
        if n = 1 then FetchOutcome.http 429 "" else FetchOutcome.success 7) 3 1000).result
      = Except.ok 7 ∧
    (∃ e, (fetchWithRetry (fun _ => (FetchOutcome.network "boom" : FetchOutcome Nat)) 2 5).result
      = Except.error e) := by
  have h := fetchWithRetry_backoffAndBoundedAttempts 1000 7
  exact ⟨h.1, h.2.2.2 Nat (fun _ => FetchOutcome.network "boom") 2 5 (by decide)⟩

/-- Claim C5: with an empty credential pool, `getNextKey` yields `null`,
the handler answers the no-keys 500 without making any upstream call,
and in general the handler performs at most one upstream attempt per
request (no retry inside the handler). -/
theorem handlerPost_noCredentials (m : KeyManager) (now : Nat)
    (code language action : String) (call : Nat → Except String String)
    (hm : m.apiKeys.length = 0) (hc : code ≠ "") (hl : language ≠ "") (ha : action ≠ "") :
    getNextKey m now = (none, m) ∧
    handlerPost m now code language action call
      = (HandlerResponse.serverError noKeysMsg, m, 0) ∧
    (∀ (m2 : KeyManager) (n2 : Nat) (c2 l2 a2 : String) (call2 : Nat → Except String String),
      (handlerPost m2 n2 c2 l2 a2 call2).2.2 ≤ 1) := by
  refine ⟨getNextKey_zero m now hm, ?_, ?_⟩
  · unfold handlerPost
    rw [if_neg (by simp [hc, hl, ha]), getNextKey_zero m now hm]
  · intro m2 n2 c2 l2 a2 call2
    unfold handlerPost
    split
    · exact Nat.zero_le 1
    · rcases hg : getNextKey m2 n2 with ⟨o, m1⟩
      rcases o with _ | v
      · simp
      · rcases v with ⟨k, idx⟩
        simp only
        split
        · rcases hcall : call2 idx with s | e2 <;> simp [hcall]
        · simp

/-- Witness for claim C5 at a concrete empty pool. -/
theorem handlerPost_noCredentials_witness :
    handlerPost mgrEmpty 4 "code" "js" "analyze" (fun _ => Except.ok "resp")
      = (HandlerResponse.serverError noKeysMsg, mgrEmpty, 0) ∧
    (handlerPost mgrTwo 4 "code" "js" "analyze" (fun _ => Except.ok "resp")).2.2 ≤ 1 := by
  have h := handlerPost_noCredentials mgrEmpty 4 "code" "js" "analyze"
    (fun _ => Except.ok "resp") rfl (by decide) (by decide) (by decide)
  exact ⟨h.2.1, h.2.2 mgrTwo 4 "code" "js" "analyze" (fun _ => Except.ok "resp")⟩

/-- Claim C6 (code bug): a value stored at time 0 with a supplied TTL of
1 ms is still returned by `get` at time 2, after the supplied TTL has
elapsed — even after the scheduled cleanup timer has fired at its fire
time of 1 — because `get` checks age against `defaultTTL` only and the
timer's guard (`timestamp === Date.now()`) is already false when it
runs. -/
theorem cacheGet_ignoresSuppliedTTL_bug :
    2 - 0 > 1 ∧
    (CacheManager.set (emptyCache Nat) 0 "f" 42 (some 1)).2 = 1 ∧
    ((CacheManager.cleanup (CacheManager.set (emptyCache Nat) 0 "f" 42 (some 1)).1 1 "f").cache
        "f").isSome = true ∧
    (CacheManager.get
        (CacheManager.cleanup (CacheManager.set (emptyCache Nat) 0 "f" 42 (some 1)).1 1 "f")
        2 "f").1 = some 42 := by
  exact ⟨by decide, rfl, rfl, rfl⟩

/-- Claim C8 counterexample: after a quota-exhausted failure on attempt
0, the client-side retry loop sleeps the full exponential-backoff delay
(1000 ms) before the next attempt, so the quota-failure retry is not
backoff-free. -/
theorem authQuotaRetryWaits_counterexample :
    (fetchWithRetry (fun n => if n = 0 then
        FetchOutcome.http 500 "API quota exhausted: RESOURCE_EXHAUSTED"
      else FetchOutcome.success 7) 3 1000).waits = [1000] ∧
    ([1000] : List Nat) ≠ [] :=
  ⟨rfl, by decide⟩

/-- Claim C8 (amended): an auth/quota-classified failure message makes
the handler mark the used credential failed immediately, but the retry
happens in the client's `fetchWithRetry`, which does sleep
`delay * 2 ^ attempt` before the next attempt even for such failures
(the next attempt then reaches a different credential through the pool's
round robin). -/
theorem authQuotaMarksFailedButClientBacksOff (m : KeyManager) (idx : Nat) (msg : String)
    (d v : Nat) (hmsg : shouldMarkFailed msg = true) :
    idx ∈ (handlerCatchApiError m idx msg).failedKeys ∧
    (fetchWithRetry (fun n => if n = 0 then FetchOutcome.http 500 msg
      else FetchOutcome.success v) 3 d).waits = [d * 2 ^ 0] ∧
    (fetchWithRetry (fun n => if n = 0 then FetchOutcome.http 500 msg
      else FetchOutcome.success v) 3 d).result = Except.ok v := by
  refine ⟨?_, rfl, rfl⟩
  unfold handlerCatchApiError
  rw [if_pos hmsg]
  exact Finset.mem_insert_self idx m.failedKeys

/-- Witness for the amended claim C8 at a concrete quota message. -/
theorem authQuotaMarksFailedButClientBacksOff_witness :
    0 ∈ (handlerCatchApiError mgrTwo 0 "RESOURCE_EXHAUSTED: quota").failedKeys ∧
    (fetchWithRetry (fun n => if n = 0 then
        FetchOutcome.http 500 "RESOURCE_EXHAUSTED: quota"
      else FetchOutcome.success 9) 3 50).waits = [50 * 2 ^ 0] := by
  have h := authQuotaMarksFailedButClientBacksOff mgrTwo 0 "RESOURCE_EXHAUSTED: quota"
    50 9 (by decide)
  exact ⟨h.1, h.2.1⟩

set_option maxRecDepth 40000 in
/-- Claim C9 counterexample: two different logical requests — operation
kinds "a" versus "a:b" — yield the same content string "a:b:c:d:" by
separator injection and therefore the same fingerprint. -/
theorem getCacheKey_collision_counterexample :
    getCacheKey "a" "d" "b:c" none = getCacheKey "a:b" "d" "c" none ∧
    ("a", "d", "b:c") ≠ ("a:b", "d", "c") :=
  ⟨rfl, by decide⟩

/-- Claim C9 (amended): the fingerprint is a deterministic function of
the request fields — any two requests whose joined
`method:language:code:extra` content strings agree receive the same
fingerprint — but distinct logical requests are not guaranteed distinct
fingerprints: fields containing the `:` separator (or 32-bit hash
collisions) can make different requests collide. -/
theorem getCacheKey_deterministic_amended
    (m1 c1 l1 : String) (e1 : Option String) (m2 c2 l2 : String) (e2 : Option String)
    (h : cacheKeyContent m1 c1 l1 e1 = cacheKeyContent m2 c2 l2 e2) :
    getCacheKey m1 c1 l1 e1 = getCacheKey m2 c2 l2 e2 := by
  unfold getCacheKey
  rw [h]

set_option maxRecDepth 40000 in
/-- Witness for the amended claim C9: equal content strings built from
different fields give equal fingerprints. -/
theorem getCacheKey_deterministic_amended_witness :
    getCacheKey "a" "x" "b:c" none = getCacheKey "a:b" "x" "c" none :=
  getCacheKey_deterministic_amended "a" "x" "b:c" none "a:b" "x" "c" none rfl

/-- Claim C10: whenever the status fetch fails in any way (non-ok HTTP
response, unparsable body, thrown network error), `checkAPIStatus`
resolves — it never rethrows — with the fallback record whose message is
"API unavailable" and whose key counters are all 0. -/
theorem checkAPIStatus_totalFallback (o : StatusFetchOutcome) (now e : String)
    (h : checkAPIStatusTry o = Except.error e) :
    checkAPIStatus o now = fallbackAPIStatus now ∧
    (checkAPIStatus o now).message = "API unavailable" ∧
    (checkAPIStatus o now).totalKeys = 0 ∧
    (checkAPIStatus o now).activeKeys = 0 ∧
    (checkAPIStatus o now).failedKeys = 0 := by
  have hc : checkAPIStatus o now = fallbackAPIStatus now := by
    unfold checkAPIStatus
    rw [h]
  exact ⟨hc, by rw [hc]; rfl, by rw [hc]; rfl, by rw [hc]; rfl, by rw [hc]; rfl⟩

/-- Witness for claim C10 at a concrete failed status fetch (HTTP 500). -/
theorem checkAPIStatus_totalFallback_witness :
    checkAPIStatus (StatusFetchOutcome.httpNotOk 500) "2026-10-12T00:00:00.000Z"
      = fallbackAPIStatus "2026-10-12T00:00:00.000Z" ∧
    (checkAPIStatus (StatusFetchOutcome.httpNotOk 500) "2026-10-12T00:00:00.000Z").message
      = "API unavailable" := by
  have h := checkAPIStatus_totalFallback (StatusFetchOutcome.httpNotOk 500)
    "2026-10-12T00:00:00.000Z" "Status check failed: 500" rfl
  exact ⟨h.1, h.2.1⟩

end CodeLens
